import Mathlib

/-!
Verification of the CyberThree grid effect scheduling and compositing system.

The definitions below are a shallow embedding of the TypeScript source:
* `src/app/scenes/cyberpunk/components/Grid/index.tsx` (grid construction,
  intersection computation, `createTube` resting material state),
* `src/app/scenes/cyberpunk/components/utils/colors.ts` (the gated
  `GridEffects` scheduler with `isPlayingRef` and `setTimeout` release),
* `src/app/scenes/cyberpunk/components/Grid/hooks/useGridEffectsManager.tsx`
  (the fade-in / hold / fade-out intensity envelope and expiry filter, and the
  `updateLineWaves` material reset loop),
* `src/app/scenes/cyberpunk/components/Grid/effects/components/energyPulsesV.tsx`
  (traveling sparks: `findIntersection`, `spawnChildPulses`, per-frame motion
  and removal),
* `src/app/scenes/cyberpunk/components/Grid/effects/components/neonPulse.tsx`
  and `gridPulseEffect.tsx` (material snapshot / apply / restore).

JavaScript numbers are modelled as exact rationals (`ℚ`); the `while
(coordinate <= extent / 2)` loops are modelled with explicit fuel, so that
non-termination of the source loop corresponds to the model returning `none`
for every fuel value.  Transcendental per-frame scalars (values of
`Math.sin`-based expressions) are passed as parameters, since only their
presence — never their value — matters for the claims below.
-/

namespace CyberThree

/-! ## Colors and material state (`three` material model, `createTube`) -/

/-- An RGB color, as manipulated by `THREE.Color` in the source. -/
structure Color3 where
  r : ℚ
  g : ℚ
  b : ℚ
deriving DecidableEq, Repr

/-- `color.multiplyScalar(k)`. -/
def Color3.multiplyScalar (c : Color3) (k : ℚ) : Color3 :=
  ⟨c.r * k, c.g * k, c.b * k⟩

/-- The mutable material fields of a grid line's mesh
(`MeshStandardMaterial.color` / `.emissive` / `.emissiveIntensity`). -/
structure MaterialState where
  color : Color3
  emissive : Color3
  emissiveIntensity : ℚ
deriving DecidableEq, Repr

/-- `tube.userData` as set in `createTube` (`TubeData` in `gridTypes.ts`). -/
structure TubeData where
  baseColor : Color3
  offset : ℚ
  emissiveBase : Color3
deriving DecidableEq, Repr

/-- A grid line's mesh: its material plus its `userData`. -/
structure GridMesh where
  material : MaterialState
  userData : TubeData
deriving DecidableEq, Repr

/-- The material/userData state produced by `createTube` for a line whose
position-based gradient color is `color` and random phase is `offset`:
`color: color.clone().multiplyScalar(0.5)`, `emissive: color.clone()`,
`emissiveIntensity: 1.0`, `userData = { baseColor: color, offset,
emissiveBase: color.clone() }`. -/
def createTube (color : Color3) (offset : ℚ) : GridMesh :=
  { material :=
      { color := color.multiplyScalar (1/2)
        emissive := color
        emissiveIntensity := 1 }
    userData :=
      { baseColor := color
        offset := offset
        emissiveBase := color } }

/-! ## Grid topology construction (`Grid/index.tsx`) -/

/-- One `GridLine` record (`gridTypes.ts`), geometry and intersection indices.
The source field `end` is a reserved word in Lean and is rendered `endp`. -/
structure GridLineData where
  isVertical : Bool
  coordinate : ℚ
  start : ℚ
  endp : ℚ
  length : ℚ
  intersections : List ℕ
deriving DecidableEq, Repr

/-- The coordinate sweep `for (let x = start; x <= stop; x += step)`,
collecting the visited coordinates.  The source loop has no termination
guard, so the model takes explicit fuel and returns `none` when the fuel is
exhausted before the guard `x <= stop` fails: a source loop that never
exits corresponds to `none` for every fuel value. -/
def sweepAux (stop step : ℚ) : ℕ → ℚ → Option (List ℚ)
  | 0, _ => none
  | n + 1, x =>
      if x ≤ stop then (sweepAux stop step n (x + step)).map (fun r => x :: r)
      else some []

/-- A vertical line created at coordinate `x`: spans `z` from `-gridDepth/2`
to `gridDepth/2`, with empty intersection list. -/
def mkVertical (gridDepth : ℚ) (x : ℚ) : GridLineData :=
  { isVertical := true
    coordinate := x
    start := -gridDepth / 2
    endp := gridDepth / 2
    length := gridDepth
    intersections := [] }

/-- A horizontal line created at coordinate `z`: spans `x` from
`-gridWidth/2` to `gridWidth/2`, with empty intersection list. -/
def mkHorizontal (gridWidth : ℚ) (z : ℚ) : GridLineData :=
  { isVertical := false
    coordinate := z
    start := -gridWidth / 2
    endp := gridWidth / 2
    length := gridWidth
    intersections := [] }

/-- Steps 1 and 2 of the `Grid` component: all vertical lines (coordinate
sweeping from `-gridWidth/2` by `spacing` while `≤ gridWidth/2`), then all
horizontal lines (sweeping from `-gridDepth/2` to `gridDepth/2`), before the
intersection pass.  `none` means a sweep loop did not finish within `fuel`
iterations. -/
def buildLines (gridWidth gridDepth spacing : ℚ) (fuel : ℕ) :
    Option (List GridLineData) :=
  match sweepAux (gridWidth / 2) spacing fuel (-gridWidth / 2),
        sweepAux (gridDepth / 2) spacing fuel (-gridDepth / 2) with
  | some xs, some zs =>
      some (xs.map (mkVertical gridDepth) ++ zs.map (mkHorizontal gridWidth))
  | _, _ => none

/-- The condition under which step 3 of the `Grid` component records the
pair `(a, b)` as intersecting (`a = lines[i]`, `b = lines[j]`, `i < j`):
`a.isVertical !== b.isVertical` and then either the `a.isVertical` branch or
the `else if (b.isVertical ...)` branch of the source. -/
def crossesAt (a b : GridLineData) : Bool :=
  a.isVertical != b.isVertical &&
    ((a.isVertical && decide (a.coordinate ≥ b.start) && decide (a.coordinate ≤ b.endp) &&
        decide (b.coordinate ≥ a.start) && decide (b.coordinate ≤ a.endp)) ||
     (b.isVertical && decide (b.coordinate ≥ a.start) && decide (b.coordinate ≤ a.endp) &&
        decide (a.coordinate ≥ b.start) && decide (a.coordinate ≤ b.endp)))

/-- `line.intersections.push(j)`. -/
def pushInter (j : ℕ) (l : GridLineData) : GridLineData :=
  { l with intersections := l.intersections ++ [j] }

/-- One iteration of the nested intersection loop for the index pair
`p = (i, j)` with `i < j`: look up both lines and, when the crossing
condition holds, push `j` into line `i`'s intersection list and `i` into
line `j`'s (the symmetric record). -/
def interPairStep (acc : List GridLineData) (p : ℕ × ℕ) : List GridLineData :=
  match acc[p.1]?, acc[p.2]? with
  | some a, some b =>
      if crossesAt a b then (acc.set p.1 (pushInter p.2 a)).set p.2 (pushInter p.1 b)
      else acc
  | _, _ => acc

/-- The index pairs visited by the nested loop
`for i in [0, n); for j in (i, n)`. -/
def allPairs (n : ℕ) : List (ℕ × ℕ) :=
  (List.range n).flatMap fun i =>
    ((List.range n).filter fun j => decide (i < j)).map fun j => (i, j)

/-- Step 3 of the `Grid` component: fold the pair step over every `i < j`
pair of line indices. -/
def computeIntersections (lines : List GridLineData) : List GridLineData :=
  (allPairs lines.length).foldl interPairStep lines

/-- The whole grid topology construction: line sweeps followed by the
intersection pass (`none` when a sweep loop does not terminate within
`fuel` iterations). -/
def gridTopology (gridWidth gridDepth spacing : ℚ) (fuel : ℕ) :
    Option (List GridLineData) :=
  (buildLines gridWidth gridDepth spacing fuel).map computeIntersections

/-- The intersection list stored at index `i` (empty for an out-of-range
index). -/
def interAt (ls : List GridLineData) (i : ℕ) : List ℕ :=
  match ls[i]? with
  | some l => l.intersections
  | none => []

/-- The geometric (never-mutated) fields stored at index `i`. -/
def geomAt (ls : List GridLineData) (i : ℕ) : Option (Bool × ℚ × ℚ × ℚ) :=
  ls[i]?.map fun l => (l.isVertical, l.coordinate, l.start, l.endp)

/-- The crossing condition of the pair `p`, read off the current line
list (false when an index is out of range). -/
def crossPairB (acc : List GridLineData) (p : ℕ × ℕ) : Bool :=
  match acc[p.1]?, acc[p.2]? with
  | some a, some b => crossesAt a b
  | _, _ => false

theorem mem_allPairs {n : ℕ} {p : ℕ × ℕ} :
    p ∈ allPairs n ↔ p.1 < p.2 ∧ p.2 < n := by
  obtain ⟨i, j⟩ := p
  simp only [allPairs, List.mem_flatMap, List.mem_map, List.mem_filter,
    List.mem_range, decide_eq_true_eq, Prod.mk.injEq]
  constructor
  · rintro ⟨a, ha, b, ⟨hb, hab⟩, rfl, rfl⟩
    exact ⟨hab, hb⟩
  · rintro ⟨hij, hj⟩
    exact ⟨i, lt_trans hij hj, j, ⟨hj, hij⟩, rfl, rfl⟩

theorem crossesAt_geom {a b a' b' : GridLineData}
    (ha : (a.isVertical, a.coordinate, a.start, a.endp)
        = (a'.isVertical, a'.coordinate, a'.start, a'.endp))
    (hb : (b.isVertical, b.coordinate, b.start, b.endp)
        = (b'.isVertical, b'.coordinate, b'.start, b'.endp)) :
    crossesAt a b = crossesAt a' b' := by
  simp only [Prod.mk.injEq] at ha hb
  obtain ⟨h1, h2, h3, h4⟩ := ha
  obtain ⟨h5, h6, h7, h8⟩ := hb
  simp only [crossesAt, h1, h2, h3, h4, h5, h6, h7, h8]

theorem crossesAt_symm (a b : GridLineData) :
    crossesAt a b = crossesAt b a := by
  cases hav : a.isVertical <;> cases hbv : b.isVertical <;>
    simp only [crossesAt, hav, hbv] <;> [skip; skip; skip; skip] <;>
    simp [Bool.and_comm, Bool.and_assoc, Bool.and_left_comm, Bool.or_comm]

theorem geomAt_interPairStep (acc : List GridLineData) (p : ℕ × ℕ) (k : ℕ) :
    geomAt (interPairStep acc p) k = geomAt acc k := by
  obtain ⟨p1, p2⟩ := p
  unfold interPairStep
  cases h1 : acc[p1]? with
  | none => rfl
  | some a =>
    cases h2 : acc[p2]? with
    | none => rfl
    | some b =>
      by_cases hc : crossesAt a b
      · have hlt1 : p1 < acc.length := (List.getElem?_eq_some.mp h1).1
        have hlt2 : p2 < acc.length := (List.getElem?_eq_some.mp h2).1
        simp only [hc, if_true, geomAt, List.getElem?_set, List.length_set]
        by_cases e2 : p2 = k
        · subst e2
          by_cases e1 : p1 = p2 <;> simp [e1, hlt1, hlt2, h1, h2, pushInter]
        · by_cases e1 : p1 = k
          · subst e1
            simp [e2, hlt1, h1, pushInter]
          · simp [e1, e2]
      · simp [hc]

theorem interAt_interPairStep (acc : List GridLineData) (p : ℕ × ℕ)
    (hp : p.1 ≠ p.2) (i j : ℕ) :
    (j ∈ interAt (interPairStep acc p) i ↔
      j ∈ interAt acc i ∨
        (((i, j) = p ∨ (j, i) = p) ∧ crossPairB acc p = true)) := by
  obtain ⟨p1, p2⟩ := p
  simp only [ne_eq] at hp
  unfold interPairStep crossPairB
  cases h1 : acc[p1]? with
  | none => simp
  | some a =>
    cases h2 : acc[p2]? with
    | none => simp
    | some b =>
      by_cases hc : crossesAt a b
      · have hlt1 : p1 < acc.length := (List.getElem?_eq_some.mp h1).1
        have hlt2 : p2 < acc.length := (List.getElem?_eq_some.mp h2).1
        simp only [hc, if_true]
        by_cases e2 : p2 = i
        · subst e2
          have hai : interAt acc p2 = b.intersections := by
            simp [interAt, h2]
          have hstep :
              interAt ((acc.set p1 (pushInter p2 a)).set p2 (pushInter p1 b)) p2
                = b.intersections ++ [p1] := by
            simp [interAt, List.getElem?_set, List.length_set, hlt2, pushInter]
          rw [hstep, hai, Prod.mk.injEq, Prod.mk.injEq]
          simp only [List.mem_append, List.mem_singleton]
          constructor
          · rintro (h | rfl)
            · exact Or.inl h
            · exact Or.inr ⟨Or.inr ⟨rfl, by trivial⟩, by trivial⟩
          · rintro (h | ⟨(⟨h, h'⟩ | ⟨h, h'⟩), -⟩)
            · exact Or.inl h
            · exact absurd h.symm hp
            · exact Or.inr h
        · by_cases e1 : p1 = i
          · subst e1
            have hai : interAt acc p1 = a.intersections := by
              simp [interAt, h1]
            have hstep :
                interAt ((acc.set p1 (pushInter p2 a)).set p2 (pushInter p1 b)) p1
                  = a.intersections ++ [p2] := by
              simp [interAt, List.getElem?_set, List.length_set, hlt1, e2,
                pushInter]
            rw [hstep, hai, Prod.mk.injEq, Prod.mk.injEq]
            simp only [List.mem_append, List.mem_singleton]
            constructor
            · rintro (h | rfl)
              · exact Or.inl h
              · exact Or.inr ⟨Or.inl ⟨by trivial, rfl⟩, by trivial⟩
            · rintro (h | ⟨(⟨h, h'⟩ | ⟨h, h'⟩), -⟩)
              · exact Or.inl h
              · exact Or.inr h'
              · exact absurd h' hp
          · have hstep :
                interAt ((acc.set p1 (pushInter p2 a)).set p2 (pushInter p1 b)) i
                  = interAt acc i := by
              simp [interAt, List.getElem?_set, List.length_set, e1, e2]
            rw [hstep, Prod.mk.injEq, Prod.mk.injEq]
            constructor
            · exact Or.inl
            · rintro (h | ⟨(⟨h, h'⟩ | ⟨h, h'⟩), -⟩)
              · exact h
              · exact absurd h.symm e1
              · exact absurd h'.symm e2
      · simp [hc]

theorem length_interPairStep (acc : List GridLineData) (p : ℕ × ℕ) :
    (interPairStep acc p).length = acc.length := by
  unfold interPairStep
  cases acc[p.1]? with
  | none => rfl
  | some a =>
    cases acc[p.2]? with
    | none => rfl
    | some b =>
      by_cases hc : crossesAt a b <;> simp [hc]

theorem length_foldl_interPairStep (ps : List (ℕ × ℕ)) (acc : List GridLineData) :
    (ps.foldl interPairStep acc).length = acc.length := by
  induction ps generalizing acc with
  | nil => rfl
  | cons p ps ih => rw [List.foldl_cons, ih, length_interPairStep]

theorem geomAt_foldl (ps : List (ℕ × ℕ)) (acc : List GridLineData) (k : ℕ) :
    geomAt (ps.foldl interPairStep acc) k = geomAt acc k := by
  induction ps generalizing acc with
  | nil => rfl
  | cons p ps ih => rw [List.foldl_cons, ih, geomAt_interPairStep]

theorem crossPairB_geom (acc acc' : List GridLineData) (p : ℕ × ℕ)
    (h : ∀ k, geomAt acc k = geomAt acc' k) :
    crossPairB acc p = crossPairB acc' p := by
  have h1 := h p.1
  have h2 := h p.2
  unfold geomAt at h1 h2
  unfold crossPairB
  cases e1 : acc[p.1]? with
  | none =>
    cases e1' : acc'[p.1]? with
    | none => rfl
    | some a' => rw [e1, e1'] at h1; simp at h1
  | some a =>
    cases e1' : acc'[p.1]? with
    | none => rw [e1, e1'] at h1; simp at h1
    | some a' =>
      rw [e1, e1'] at h1
      simp only [Option.map_some', Option.some.injEq] at h1
      cases e2 : acc[p.2]? with
      | none =>
        cases e2' : acc'[p.2]? with
        | none => rfl
        | some b' => rw [e2, e2'] at h2; simp at h2
      | some b =>
        cases e2' : acc'[p.2]? with
        | none => rw [e2, e2'] at h2; simp at h2
        | some b' =>
          rw [e2, e2'] at h2
          simp only [Option.map_some', Option.some.injEq] at h2
          exact crossesAt_geom h1 h2

theorem crossPairB_comm (acc : List GridLineData) (i j : ℕ) :
    crossPairB acc (j, i) = crossPairB acc (i, j) := by
  unfold crossPairB
  cases acc[i]? with
  | none => cases acc[j]? <;> rfl
  | some a =>
    cases acc[j]? with
    | none => rfl
    | some b => exact crossesAt_symm b a

theorem interAt_foldl (ps : List (ℕ × ℕ)) (hps : ∀ p ∈ ps, p.1 ≠ p.2)
    (acc : List GridLineData) (i j : ℕ) :
    j ∈ interAt (ps.foldl interPairStep acc) i ↔
      j ∈ interAt acc i ∨
        ((i, j) ∈ ps ∧ crossPairB acc (i, j) = true) ∨
        ((j, i) ∈ ps ∧ crossPairB acc (j, i) = true) := by
  induction ps generalizing acc with
  | nil => simp
  | cons p ps ih =>
    rw [List.foldl_cons]
    have hp : p.1 ≠ p.2 := hps p (List.mem_cons_self p ps)
    have hrest : ∀ q ∈ ps, q.1 ≠ q.2 := fun q hq => hps q (List.mem_cons_of_mem p hq)
    rw [ih hrest]
    have hcross : ∀ q, crossPairB (interPairStep acc p) q = crossPairB acc q :=
      fun q => crossPairB_geom _ _ q (fun k => geomAt_interPairStep acc p k)
    rw [hcross, hcross, interAt_interPairStep acc p hp i j]
    simp only [List.mem_cons]
    constructor
    · rintro ((h | ⟨(rfl | rfl), hcp⟩) | ⟨hm, hc1⟩ | ⟨hm, hc2⟩)
      · exact Or.inl h
      · exact Or.inr (Or.inl ⟨Or.inl rfl, hcp⟩)
      · exact Or.inr (Or.inr ⟨Or.inl rfl, hcp⟩)
      · exact Or.inr (Or.inl ⟨Or.inr hm, hc1⟩)
      · exact Or.inr (Or.inr ⟨Or.inr hm, hc2⟩)
    · rintro (h | ⟨(rfl | hm), hc⟩ | ⟨(rfl | hm), hc⟩)
      · exact Or.inl (Or.inl h)
      · exact Or.inl (Or.inr ⟨Or.inl rfl, hc⟩)
      · exact Or.inr (Or.inl ⟨hm, hc⟩)
      · exact Or.inl (Or.inr ⟨Or.inr rfl, hc⟩)
      · exact Or.inr (Or.inr ⟨hm, hc⟩)

theorem interAt_computeIntersections (lines : List GridLineData)
    (hinit : ∀ k, interAt lines k = []) (i j : ℕ) :
    j ∈ interAt (computeIntersections lines) i ↔
      i ≠ j ∧ crossPairB lines (i, j) = true := by
  unfold computeIntersections
  rw [interAt_foldl (allPairs lines.length)
      (fun p hp => Nat.ne_of_lt (mem_allPairs.mp hp).1) lines i j, hinit i]
  have hmem : ∀ a b : ℕ, (a, b) ∈ allPairs lines.length ↔ a < b ∧ b < lines.length :=
    fun a b => mem_allPairs
  rw [hmem, hmem, crossPairB_comm]
  constructor
  · rintro (h | ⟨⟨hij, _⟩, hc⟩ | ⟨⟨hji, _⟩, hc⟩)
    · exact absurd h (List.not_mem_nil j)
    · exact ⟨Nat.ne_of_lt hij, hc⟩
    · exact ⟨Nat.ne_of_gt hji, hc⟩
  · rintro ⟨hne, hc⟩
    have hj : j < lines.length := by
      rcases h2 : lines[j]? with _ | b
      · exfalso
        unfold crossPairB at hc
        rcases h1 : lines[i]? with _ | a <;> rw [h1, h2] at hc <;> simp at hc
      · exact (List.getElem?_eq_some.mp h2).1
    have hi : i < lines.length := by
      rcases h1 : lines[i]? with _ | a
      · exfalso
        unfold crossPairB at hc
        rw [h1] at hc
        simp at hc
      · exact (List.getElem?_eq_some.mp h1).1
    rcases Nat.lt_or_gt_of_ne hne with hij | hji
    · exact Or.inr (Or.inl ⟨⟨hij, hj⟩, hc⟩)
    · exact Or.inr (Or.inr ⟨⟨hji, hi⟩, hc⟩)

theorem sweepAux_isSome (stop step : ℚ) :
    ∀ (n : ℕ) (x : ℚ), stop < x + n * step → (sweepAux stop step (n + 1) x).isSome = true := by
  intro n
  induction n with
  | zero =>
    intro x hx
    rw [Nat.cast_zero, zero_mul, add_zero] at hx
    simp [sweepAux, not_le.mpr hx]
  | succ n ih =>
    intro x hx
    show (sweepAux stop step (n + 1 + 1) x).isSome = true
    rw [sweepAux]
    by_cases hle : x ≤ stop
    · rw [if_pos hle]
      have h2 := ih (x + step) (by push_cast at hx ⊢; linarith)
      rcases Option.isSome_iff_exists.mp h2 with ⟨l, hl⟩
      rw [hl]
      rfl
    · rw [if_neg hle]
      rfl

theorem sweepAux_none_of_nonpos (stop step : ℚ) (hstep : step ≤ 0) :
    ∀ (n : ℕ) (x : ℚ), x ≤ stop → sweepAux stop step n x = none := by
  intro n
  induction n with
  | zero => intro x _; rfl
  | succ n ih =>
    intro x hx
    rw [sweepAux, if_pos hx, ih (x + step) (by linarith), Option.map_none']

theorem sweepAux_length (stop step : ℚ) (hstep : 0 < step) :
    ∀ (n : ℕ) (x : ℚ) (l : List ℚ), sweepAux stop step n x = some l → x ≤ stop →
      l.length = (⌊(stop - x) / step⌋).toNat + 1 := by
  intro n
  induction n with
  | zero => intro x l h _; exact absurd h (by simp [sweepAux])
  | succ n ih =>
    intro x l h hx
    rw [sweepAux, if_pos hx] at h
    rcases Option.map_eq_some'.mp h with ⟨l', hl', rfl⟩
    by_cases hnext : x + step ≤ stop
    · have hlen := ih (x + step) l' hl' hnext
      have hfloor : ⌊(stop - x) / step⌋ = ⌊(stop - (x + step)) / step⌋ + 1 := by
        rw [show (stop - x) / step = (stop - (x + step)) / step + 1 by
          field_simp
          ring]
        exact Int.floor_add_one _
      have hnn : 0 ≤ ⌊(stop - (x + step)) / step⌋ :=
        Int.floor_nonneg.mpr (div_nonneg (by linarith) (le_of_lt hstep))
      simp only [List.length_cons, hlen, hfloor]
      omega
    · have hzero : ⌊(stop - x) / step⌋ = 0 := by
        rw [Int.floor_eq_zero_iff]
        constructor
        · exact div_nonneg (by linarith) (le_of_lt hstep)
        · rw [div_lt_one hstep]; linarith
      have : l' = [] := by
        cases n with
        | zero => exact absurd hl' (by simp [sweepAux])
        | succ m =>
          rw [sweepAux, if_neg (not_le.mpr (not_le.mp hnext))] at hl'
          exact (Option.some.injEq _ _).mp hl' |>.symm
      subst this
      simp [hzero]

theorem sweepAux_get (stop step : ℚ) :
    ∀ (n : ℕ) (x : ℚ) (l : List ℚ), sweepAux stop step n x = some l →
      ∀ (k : ℕ) (hk : k < l.length), l.get ⟨k, hk⟩ = x + k * step ∧ l.get ⟨k, hk⟩ ≤ stop := by
  intro n
  induction n with
  | zero => intro x l h; exact absurd h (by simp [sweepAux])
  | succ n ih =>
    intro x l h k hk
    rw [sweepAux] at h
    by_cases hle : x ≤ stop
    · rw [if_pos hle] at h
      rcases Option.map_eq_some'.mp h with ⟨l', hl', rfl⟩
      cases k with
      | zero =>
        refine ⟨?_, hle⟩
        show x = x + ((0 : ℕ) : ℚ) * step
        push_cast
        ring
      | succ m =>
        have hm : m < l'.length := by
          simpa [List.length_cons] using hk
        have := ih (x + step) l' hl' m hm
        constructor
        · show l'.get ⟨m, hm⟩ = _
          rw [this.1]
          push_cast
          ring
        · exact this.2
    · rw [if_neg hle] at h
      have : l = [] := ((Option.some.injEq _ _).mp h).symm
      subst this
      exact absurd hk (by simp)

theorem buildLines_eq {gridWidth gridDepth spacing : ℚ} {fuel : ℕ}
    {ls : List GridLineData}
    (h : buildLines gridWidth gridDepth spacing fuel = some ls) :
    ∃ xs zs,
      sweepAux (gridWidth / 2) spacing fuel (-gridWidth / 2) = some xs ∧
      sweepAux (gridDepth / 2) spacing fuel (-gridDepth / 2) = some zs ∧
      ls = xs.map (mkVertical gridDepth) ++ zs.map (mkHorizontal gridWidth) := by
  unfold buildLines at h
  cases e1 : sweepAux (gridWidth / 2) spacing fuel (-gridWidth / 2) with
  | none => rw [e1] at h; exact absurd h (by simp)
  | some xs =>
    cases e2 : sweepAux (gridDepth / 2) spacing fuel (-gridDepth / 2) with
    | none => rw [e1, e2] at h; exact absurd h (by simp)
    | some zs =>
      rw [e1, e2] at h
      exact ⟨xs, zs, rfl, rfl, ((Option.some.injEq _ _).mp h).symm⟩

theorem buildLines_interAt_nil {gridWidth gridDepth spacing : ℚ} {fuel : ℕ}
    {ls : List GridLineData}
    (h : buildLines gridWidth gridDepth spacing fuel = some ls) :
    ∀ k, interAt ls k = [] := by
  intro k
  rcases buildLines_eq h with ⟨xs, zs, _, _, rfl⟩
  unfold interAt
  cases hidx : (xs.map (mkVertical gridDepth) ++ zs.map (mkHorizontal gridWidth))[k]? with
  | none => rfl
  | some l =>
    have hmem := List.getElem?_mem hidx
    rcases List.mem_append.mp hmem with hm | hm
    · rcases List.mem_map.mp hm with ⟨x, _, rfl⟩
      rfl
    · rcases List.mem_map.mp hm with ⟨z, _, rfl⟩
      rfl

/-- The crossing predicate exactly as the spec words it: one line is
vertical and one horizontal, the vertical line's fixed coordinate lies
within the horizontal line's closed `[start, end]` span, and the horizontal
line's fixed coordinate lies within the vertical line's closed span.
Written from the spec sentence, to be compared with the source-derived
`crossesAt`. -/
def specCross (a b : GridLineData) : Prop :=
  (a.isVertical = true ∧ b.isVertical = false ∧
    b.start ≤ a.coordinate ∧ a.coordinate ≤ b.endp ∧
    a.start ≤ b.coordinate ∧ b.coordinate ≤ a.endp) ∨
  (b.isVertical = true ∧ a.isVertical = false ∧
    a.start ≤ b.coordinate ∧ b.coordinate ≤ a.endp ∧
    b.start ≤ a.coordinate ∧ a.coordinate ≤ b.endp)

theorem crossesAt_iff_specCross (a b : GridLineData) :
    crossesAt a b = true ↔ specCross a b := by
  cases hav : a.isVertical <;> cases hbv : b.isVertical <;>
    simp [crossesAt, specCross, hav, hbv, ge_iff_le, and_assoc]

/-- **C4**.  In the grid built for positive width, depth and spacing, a pair
of lines is recorded as intersecting iff one is vertical and one is
horizontal and each line's fixed coordinate lies within the other's closed
`[start, end]` span; the relation is recorded symmetrically.  (The relation
is computed once at construction: `gridTopology` is a pure function of its
inputs, and nothing in the model mutates its result afterwards.) -/
theorem gridTopology_intersections_spec
    {gridWidth gridDepth spacing : ℚ} {fuel : ℕ} {grid : List GridLineData}
    (hW : 0 < gridWidth) (hD : 0 < gridDepth) (hS : 0 < spacing)
    (h : gridTopology gridWidth gridDepth spacing fuel = some grid)
    (i j : ℕ) (a b : GridLineData)
    (ha : grid[i]? = some a) (hb : grid[j]? = some b) :
    (j ∈ a.intersections ↔ i ≠ j ∧ specCross a b) ∧
    (j ∈ a.intersections ↔ i ∈ b.intersections) := by
  rcases Option.map_eq_some'.mp h with ⟨lines0, hbl, hgrid⟩
  subst hgrid
  have hinit := buildLines_interAt_nil hbl
  have hIA : interAt (computeIntersections lines0) i = a.intersections := by
    unfold interAt
    rw [ha]
  have hIB : interAt (computeIntersections lines0) j = b.intersections := by
    unfold interAt
    rw [hb]
  have hgeom : ∀ k, geomAt (computeIntersections lines0) k = geomAt lines0 k :=
    fun k => geomAt_foldl (allPairs lines0.length) lines0 k
  have hcpb : ∀ q, crossPairB lines0 q = crossPairB (computeIntersections lines0) q :=
    fun q => (crossPairB_geom _ _ q hgeom).symm
  have hcab : crossPairB (computeIntersections lines0) (i, j) = crossesAt a b := by
    unfold crossPairB
    rw [ha, hb]
  have key1 : j ∈ a.intersections ↔ i ≠ j ∧ crossesAt a b = true := by
    rw [← hIA, interAt_computeIntersections lines0 hinit i j, hcpb, hcab]
  constructor
  · rw [key1, crossesAt_iff_specCross]
  · have key2 : i ∈ b.intersections ↔ j ≠ i ∧ crossesAt a b = true := by
      rw [← hIB, interAt_computeIntersections lines0 hinit j i, hcpb]
      have : crossPairB (computeIntersections lines0) (j, i)
          = crossPairB (computeIntersections lines0) (i, j) :=
        crossPairB_comm _ i j
      rw [this, hcab]
    rw [key1, key2, ne_comm]

theorem gridTopology_intersections_spec_witness :
    ((1 ∈ (GridLineData.mk true (-1/2) (-1/2) (1/2) 1 [1]).intersections ↔
        0 ≠ 1 ∧ specCross (GridLineData.mk true (-1/2) (-1/2) (1/2) 1 [1])
          (GridLineData.mk false (-1/2) (-1/2) (1/2) 1 [0])) ∧
      (1 ∈ (GridLineData.mk true (-1/2) (-1/2) (1/2) 1 [1]).intersections ↔
        0 ∈ (GridLineData.mk false (-1/2) (-1/2) (1/2) 1 [0]).intersections)) :=
  @gridTopology_intersections_spec 1 1 2 2
    [GridLineData.mk true (-1/2) (-1/2) (1/2) 1 [1],
     GridLineData.mk false (-1/2) (-1/2) (1/2) 1 [0]]
    (by norm_num) (by norm_num) (by norm_num)
    (by norm_num [gridTopology, buildLines, sweepAux, computeIntersections,
      allPairs, interPairStep, crossesAt, pushInter, mkVertical, mkHorizontal,
      List.range_succ]) 0 1
    (GridLineData.mk true (-1/2) (-1/2) (1/2) 1 [1])
    (GridLineData.mk false (-1/2) (-1/2) (1/2) 1 [0])
    rfl rfl

/-- **C5**.  For positive `(W, D, S)`, the construction outputs first all
vertical lines (coordinates swept from `-W/2` upward in steps of `S`, each
at most `W/2`), then all horizontal lines swept the same way from `-D/2`;
every vertical line spans the full depth `[-D/2, D/2]`, every horizontal
line spans the full width `[-W/2, W/2]`, and the number of vertical lines
is `⌊W/S⌋ + 1`. -/
theorem buildLines_layout_spec
    {gridWidth gridDepth spacing : ℚ} {fuel : ℕ} {ls : List GridLineData}
    (hW : 0 < gridWidth) (hD : 0 < gridDepth) (hS : 0 < spacing)
    (h : buildLines gridWidth gridDepth spacing fuel = some ls) :
    ∃ xs zs : List ℚ,
      ls = xs.map (mkVertical gridDepth) ++ zs.map (mkHorizontal gridWidth) ∧
      (∀ (k : ℕ) (hk : k < xs.length),
        xs.get ⟨k, hk⟩ = -gridWidth / 2 + k * spacing ∧
        xs.get ⟨k, hk⟩ ≤ gridWidth / 2) ∧
      (∀ (k : ℕ) (hk : k < zs.length),
        zs.get ⟨k, hk⟩ = -gridDepth / 2 + k * spacing ∧
        zs.get ⟨k, hk⟩ ≤ gridDepth / 2) ∧
      (∀ l ∈ ls, l.isVertical = true →
        l.start = -gridDepth / 2 ∧ l.endp = gridDepth / 2 ∧ l.length = gridDepth) ∧
      (∀ l ∈ ls, l.isVertical = false →
        l.start = -gridWidth / 2 ∧ l.endp = gridWidth / 2 ∧ l.length = gridWidth) ∧
      (ls.filter fun l => l.isVertical).length
        = (⌊gridWidth / spacing⌋).toNat + 1 := by
  rcases buildLines_eq h with ⟨xs, zs, hxs, hzs, rfl⟩
  refine ⟨xs, zs, rfl, ?_, ?_, ?_, ?_, ?_⟩
  · intro k hk
    exact sweepAux_get (gridWidth / 2) spacing fuel (-gridWidth / 2) xs hxs k hk
  · intro k hk
    exact sweepAux_get (gridDepth / 2) spacing fuel (-gridDepth / 2) zs hzs k hk
  · intro l hl hv
    rcases List.mem_append.mp hl with hm | hm
    · rcases List.mem_map.mp hm with ⟨x, _, rfl⟩
      exact ⟨rfl, rfl, rfl⟩
    · rcases List.mem_map.mp hm with ⟨z, _, rfl⟩
      exact absurd hv (by simp [mkHorizontal])
  · intro l hl hv
    rcases List.mem_append.mp hl with hm | hm
    · rcases List.mem_map.mp hm with ⟨x, _, rfl⟩
      exact absurd hv (by simp [mkVertical])
    · rcases List.mem_map.mp hm with ⟨z, _, rfl⟩
      exact ⟨rfl, rfl, rfl⟩
  · have hfv : (xs.map (mkVertical gridDepth)).filter (fun l => l.isVertical)
        = xs.map (mkVertical gridDepth) := by
      rw [List.filter_eq_self]
      intro l hl
      rcases List.mem_map.mp hl with ⟨x, _, rfl⟩
      rfl
    have hfh : (zs.map (mkHorizontal gridWidth)).filter (fun l => l.isVertical)
        = [] := by
      rw [List.filter_eq_nil_iff]
      intro l hl
      rcases List.mem_map.mp hl with ⟨z, _, rfl⟩
      simp [mkHorizontal]
    rw [List.filter_append, hfv, hfh, List.append_nil, List.length_map]
    have hlen := sweepAux_length (gridWidth / 2) spacing hS fuel (-gridWidth / 2)
      xs hxs (by linarith)
    rw [hlen]
    have : gridWidth / 2 - -gridWidth / 2 = gridWidth := by ring
    rw [this]

theorem buildLines_layout_spec_witness :
    ∃ xs zs : List ℚ,
      ([GridLineData.mk true (-1/2) (-1/2) (1/2) 1 [],
        GridLineData.mk false (-1/2) (-1/2) (1/2) 1 []] : List GridLineData)
        = xs.map (mkVertical 1) ++ zs.map (mkHorizontal 1) ∧
      (∀ (k : ℕ) (hk : k < xs.length),
        xs.get ⟨k, hk⟩ = -1 / 2 + k * 2 ∧ xs.get ⟨k, hk⟩ ≤ 1 / 2) ∧
      (∀ (k : ℕ) (hk : k < zs.length),
        zs.get ⟨k, hk⟩ = -1 / 2 + k * 2 ∧ zs.get ⟨k, hk⟩ ≤ 1 / 2) ∧
      (∀ l ∈ ([GridLineData.mk true (-1/2) (-1/2) (1/2) 1 [],
        GridLineData.mk false (-1/2) (-1/2) (1/2) 1 []] : List GridLineData),
        l.isVertical = true → l.start = -1 / 2 ∧ l.endp = 1 / 2 ∧ l.length = 1) ∧
      (∀ l ∈ ([GridLineData.mk true (-1/2) (-1/2) (1/2) 1 [],
        GridLineData.mk false (-1/2) (-1/2) (1/2) 1 []] : List GridLineData),
        l.isVertical = false → l.start = -1 / 2 ∧ l.endp = 1 / 2 ∧ l.length = 1) ∧
      (([GridLineData.mk true (-1/2) (-1/2) (1/2) 1 [],
        GridLineData.mk false (-1/2) (-1/2) (1/2) 1 []] : List GridLineData).filter
          fun l => l.isVertical).length = (⌊(1 : ℚ) / 2⌋).toNat + 1 :=
  @buildLines_layout_spec 1 1 2 2
    [GridLineData.mk true (-1/2) (-1/2) (1/2) 1 [],
     GridLineData.mk false (-1/2) (-1/2) (1/2) 1 []]
    (by norm_num) (by norm_num) (by norm_num)
    (by norm_num [buildLines, sweepAux, mkVertical, mkHorizontal])

/-- **C10**.  For positive width, depth and spacing the construction sweeps
terminate: there is a fuel bound within which both loops exit, producing a
finite line list (the loop variable increases by `spacing` each iteration
and is bounded above by the half-extent). -/
theorem gridTopology_terminates
    {gridWidth gridDepth spacing : ℚ}
    (hW : 0 < gridWidth) (hD : 0 < gridDepth) (hS : 0 < spacing) :
    ∃ (fuel : ℕ) (ls : List GridLineData),
      gridTopology gridWidth gridDepth spacing fuel = some ls := by
  rcases exists_nat_gt (max (gridWidth / spacing) (gridDepth / spacing)) with ⟨n, hn⟩
  have hw : gridWidth / spacing < n := lt_of_le_of_lt (le_max_left _ _) hn
  have hd : gridDepth / spacing < n := lt_of_le_of_lt (le_max_right _ _) hn
  have hw' : gridWidth < n * spacing := by
    rw [div_lt_iff₀ hS] at hw
    linarith
  have hd' : gridDepth < n * spacing := by
    rw [div_lt_iff₀ hS] at hd
    linarith
  have h1 : (sweepAux (gridWidth / 2) spacing (n + 1) (-gridWidth / 2)).isSome = true :=
    sweepAux_isSome _ _ n _ (by linarith)
  have h2 : (sweepAux (gridDepth / 2) spacing (n + 1) (-gridDepth / 2)).isSome = true :=
    sweepAux_isSome _ _ n _ (by linarith)
  rcases Option.isSome_iff_exists.mp h1 with ⟨xs, hxs⟩
  rcases Option.isSome_iff_exists.mp h2 with ⟨zs, hzs⟩
  refine ⟨n + 1, computeIntersections
    (xs.map (mkVertical gridDepth) ++ zs.map (mkHorizontal gridWidth)), ?_⟩
  unfold gridTopology buildLines
  rw [hxs, hzs]
  rfl

theorem gridTopology_terminates_witness :
    ∃ (fuel : ℕ) (ls : List GridLineData), gridTopology 2 2 1 fuel = some ls :=
  gridTopology_terminates (by norm_num) (by norm_num) (by norm_num)

/-- **C7** (the code, evaluated): with zero or negative spacing the
construction never fails fast — the sweep loop guard `x <= extent/2` never
becomes false, so for every fuel bound the construction is still running
(`none`); no configuration error of any kind is produced.  This contradicts
the claim that degenerate spacing fails fast with a descriptive
configuration error. -/
theorem gridTopology_degenerate_spacing_never_completes
    {gridWidth gridDepth spacing : ℚ}
    (hW : 0 ≤ gridWidth) (hS : spacing ≤ 0) :
    ∀ fuel : ℕ, gridTopology gridWidth gridDepth spacing fuel = none := by
  intro fuel
  have h1 : sweepAux (gridWidth / 2) spacing fuel (-gridWidth / 2) = none :=
    sweepAux_none_of_nonpos _ _ hS fuel _ (by linarith)
  unfold gridTopology buildLines
  rw [h1]
  rfl

theorem gridTopology_degenerate_spacing_never_completes_witness :
    gridTopology 400 350 0 1000000 = none :=
  gridTopology_degenerate_spacing_never_completes (by norm_num) (by norm_num)
    1000000

/-! ## The gated effect scheduler (`GridEffects` in `colors.ts`) -/

/-- The effect kinds of the gated `GridEffects` scheduler's `EFFECTS_CONFIG`
table in `colors.ts` (the composition with the weighted kind table). -/
inductive SchedEffectType
  | gridPulse
  | neonPulse
  | neonRipple
deriving DecidableEq, Repr

/-- One row of `EFFECTS_CONFIG`. -/
structure SchedEffectConfig where
  duration : ℚ
  cooldown : ℚ
  intensity : ℚ
deriving DecidableEq, Repr

/-- The `EFFECTS_CONFIG` table:
`gridPulse: {8000, 4000, 1.5}`, `neonPulse: {3000, 2000, 1}`,
`neonRipple: {3000, 2000, 1.7}`. -/
def EFFECTS_CONFIG : SchedEffectType → SchedEffectConfig
  | .gridPulse => ⟨8000, 4000, 3/2⟩
  | .neonPulse => ⟨3000, 2000, 1⟩
  | .neonRipple => ⟨3000, 2000, 17/10⟩

/-- An `ActiveEffect` record of the gated scheduler. -/
structure ActiveEffect where
  type : SchedEffectType
  startTime : ℚ
  intensity : ℚ
deriving DecidableEq, Repr

/-- The scheduler's mutable state: the active pool (`activeEffects`), the
last selected kind (`lastEffectRef`), the concurrency gate
(`isPlayingRef`), and the pending `setTimeout` that will clear the gate
(`gateReleaseAt = some t` means a timer will set `isPlayingRef = false` at
time `t`). -/
structure SchedulerState where
  activeEffects : List ActiveEffect
  lastEffect : Option SchedEffectType
  isPlaying : Bool
  gateReleaseAt : Option ℚ
deriving DecidableEq, Repr

/-- `triggerEffect(type)` called at time `now`: a silent no-op while
`isPlayingRef.current` is set; otherwise sets the gate and the last kind,
appends a new instance `{type, startTime: now, intensity: 0}`, and
schedules the gate release for `now + EFFECTS_CONFIG[type].duration`. -/
def triggerEffect (now : ℚ) (type : SchedEffectType) (s : SchedulerState) :
    SchedulerState :=
  if s.isPlaying then s
  else
    { activeEffects := s.activeEffects ++ [⟨type, now, 0⟩]
      lastEffect := some type
      isPlaying := true
      gateReleaseAt := some (now + (EFFECTS_CONFIG type).duration) }

/-- The `setTimeout` callback that resets `isPlayingRef`: it fires once the
current time has reached the scheduled release time. -/
def processGateRelease (now : ℚ) (s : SchedulerState) : SchedulerState :=
  match s.gateReleaseAt with
  | some t =>
      if t ≤ now then { s with isPlaying := false, gateReleaseAt := none }
      else s
  | none => s

/-! ## The effects manager envelope (`useGridEffectsManager.tsx`) -/

/-- The effect kinds of `useGridEffectsManager`. -/
inductive EffectType
  | lineWave
  | energyPulse
  | energyPulseV
  | ripple
deriving DecidableEq, Repr

/-- One row of the manager's `effectConfigs`. -/
structure EffectConfig where
  duration : ℚ
  fadeInDuration : ℚ
  fadeOutDuration : ℚ
deriving DecidableEq, Repr

/-- The manager's `effectConfigs` table:
`lineWave: {4000, 500, 500}`, `energyPulse: {3000, 300, 300}`,
`energyPulseV: {3500, 400, 400}`, `ripple: {2000, 200, 800}`. -/
def effectConfigs : EffectType → EffectConfig
  | .lineWave => ⟨4000, 500, 500⟩
  | .energyPulse => ⟨3000, 300, 300⟩
  | .energyPulseV => ⟨3500, 400, 400⟩
  | .ripple => ⟨2000, 200, 800⟩

/-- An `Effect` record of the manager's active pool. -/
structure Effect where
  type : EffectType
  active : Bool
  intensity : ℚ
  startTime : ℚ
  duration : ℚ
deriving DecidableEq, Repr

/-- The manager's `triggerEffect(type)` at time `currentTime`: unlike the
gated scheduler it performs no admission check; it always appends
`{type, active: true, intensity: 0, startTime, duration: config.duration}`. -/
def managerTriggerEffect (currentTime : ℚ) (type : EffectType)
    (effects : List Effect) : List Effect :=
  effects ++ [⟨type, true, 0, currentTime, (effectConfigs type).duration⟩]

/-- The per-frame intensity computation of the manager's `useFrame` body for
elapsed time `elapsed`: start from 1, take `elapsed / fadeInDuration` during
fade-in, `(duration - elapsed) / fadeOutDuration` once past
`duration - fadeOutDuration`, then clamp with
`Math.max(0, Math.min(1, intensity))`. -/
def intensityAt (config : EffectConfig) (duration elapsed : ℚ) : ℚ :=
  max 0 (min 1
    (if elapsed < config.fadeInDuration then elapsed / config.fadeInDuration
     else if elapsed > duration - config.fadeOutDuration then
       (duration - elapsed) / config.fadeOutDuration
     else 1))

/-- The per-effect part of the manager's frame update: recompute the
intensity and the `active` flag (`elapsed < effect.duration`). -/
def updateEffect (currentTime : ℚ) (e : Effect) : Effect :=
  { e with
      intensity := intensityAt (effectConfigs e.type) e.duration
        (currentTime - e.startTime)
      active := decide (currentTime - e.startTime < e.duration) }

/-- The manager's whole frame update: map the per-effect update over the
pool, then drop every effect whose `active` flag is cleared. -/
def tickEffects (currentTime : ℚ) (effects : List Effect) : List Effect :=
  (effects.map (updateEffect currentTime)).filter fun e => e.active

theorem tickEffects_eq (now : ℚ) (effects : List Effect) :
    tickEffects now effects
      = ((effects.filter fun e => decide (now - e.startTime < e.duration)).map
          (updateEffect now)) := by
  unfold tickEffects
  rw [List.filter_map]
  rfl

theorem intensityAt_piecewise (c : EffectConfig) (d : ℚ)
    (hfi : 0 < c.fadeInDuration) (hfo : 0 < c.fadeOutDuration)
    (hsep : c.fadeInDuration ≤ d - c.fadeOutDuration) :
    (∀ t : ℚ, 0 ≤ t → t < c.fadeInDuration →
      intensityAt c d t = t / c.fadeInDuration) ∧
    (∀ t : ℚ, c.fadeInDuration ≤ t → t ≤ d - c.fadeOutDuration →
      intensityAt c d t = 1) ∧
    (∀ t : ℚ, d - c.fadeOutDuration < t → t ≤ d →
      intensityAt c d t = (d - t) / c.fadeOutDuration) := by
  refine ⟨?_, ?_, ?_⟩
  · intro t h0 h1
    unfold intensityAt
    rw [if_pos h1]
    have hlt : t / c.fadeInDuration < 1 := (div_lt_one hfi).mpr h1
    have hnn : 0 ≤ t / c.fadeInDuration := div_nonneg h0 hfi.le
    rw [min_eq_right hlt.le, max_eq_right hnn]
  · intro t h1 h2
    unfold intensityAt
    rw [if_neg (not_lt.mpr h1), if_neg (not_lt.mpr h2)]
    norm_num
  · intro t h1 h2
    unfold intensityAt
    have hge : ¬t < c.fadeInDuration := not_lt.mpr (le_of_lt (lt_of_le_of_lt hsep h1))
    rw [if_neg hge, if_pos h1]
    have hlt : (d - t) / c.fadeOutDuration < 1 := (div_lt_one hfo).mpr (by linarith)
    have hnn : 0 ≤ (d - t) / c.fadeOutDuration :=
      div_nonneg (by linarith) hfo.le
    rw [min_eq_right hlt.le, max_eq_right hnn]

/-- **C1**.  `triggerEffect` while the gate is held is a silent no-op (the
state is returned unchanged, and the model is a total function, so no error
is raised).  From a clear gate, two calls in immediate succession (the
second before any gate release fires) admit exactly one instance: the
second call changes nothing, the pool grows by exactly one (and from an
empty pool, to exactly one), and the gate stays held strictly before
`now + duration(kind)` and is released once the admitted kind's configured
duration has elapsed. -/
theorem triggerEffect_gate_spec (s : SchedulerState) (now now2 : ℚ)
    (k1 k2 : SchedEffectType) :
    (s.isPlaying = true → triggerEffect now k1 s = s) ∧
    (s.isPlaying = false →
      (triggerEffect now2 k2 (triggerEffect now k1 s) = triggerEffect now k1 s ∧
       (triggerEffect now2 k2 (triggerEffect now k1 s)).activeEffects.length
         = s.activeEffects.length + 1 ∧
       (s.activeEffects = [] →
         (triggerEffect now2 k2 (triggerEffect now k1 s)).activeEffects.length = 1) ∧
       (∀ t : ℚ, t < now + (EFFECTS_CONFIG k1).duration →
         (processGateRelease t (triggerEffect now k1 s)).isPlaying = true) ∧
       (processGateRelease (now + (EFFECTS_CONFIG k1).duration)
         (triggerEffect now k1 s)).isPlaying = false)) := by
  constructor
  · intro h
    unfold triggerEffect
    rw [if_pos h]
  · intro h
    have hs1 : triggerEffect now k1 s =
        { activeEffects := s.activeEffects ++ [⟨k1, now, 0⟩]
          lastEffect := some k1
          isPlaying := true
          gateReleaseAt := some (now + (EFFECTS_CONFIG k1).duration) } := by
      unfold triggerEffect
      rw [if_neg (by simp [h])]
    refine ⟨?_, ?_, ?_, ?_, ?_⟩
    · rw [hs1]
      unfold triggerEffect
      rw [if_pos rfl]
    · rw [hs1]
      unfold triggerEffect
      rw [if_pos rfl]
      simp
    · intro hempty
      rw [hs1]
      unfold triggerEffect
      rw [if_pos rfl]
      simp [hempty]
    · intro t ht
      rw [hs1]
      unfold processGateRelease
      simp only
      rw [if_neg (not_le.mpr ht)]
    · rw [hs1]
      unfold processGateRelease
      simp only
      rw [if_pos le_rfl]

theorem triggerEffect_gate_spec_witness :
    (SchedulerState.mk [] none false none).isPlaying = false ∧
    triggerEffect 0 SchedEffectType.neonPulse
        (triggerEffect 0 SchedEffectType.gridPulse
          (SchedulerState.mk [] none false none))
      = triggerEffect 0 SchedEffectType.gridPulse
          (SchedulerState.mk [] none false none) ∧
    (triggerEffect 0 SchedEffectType.neonPulse
        (triggerEffect 0 SchedEffectType.gridPulse
          (SchedulerState.mk [] none false none))).activeEffects.length = 1 ∧
    (processGateRelease 7999 (triggerEffect 0 SchedEffectType.gridPulse
        (SchedulerState.mk [] none false none))).isPlaying = true ∧
    (processGateRelease (0 + (EFFECTS_CONFIG SchedEffectType.gridPulse).duration)
        (triggerEffect 0 SchedEffectType.gridPulse
          (SchedulerState.mk [] none false none))).isPlaying = false := by
  have h := triggerEffect_gate_spec (SchedulerState.mk [] none false none) 0 0
    SchedEffectType.gridPulse SchedEffectType.neonPulse
  have h2 := h.2 rfl
  exact ⟨rfl, h2.1, h2.2.2.1 rfl, h2.2.2.2.1 7999 (by norm_num [EFFECTS_CONFIG]),
    h2.2.2.2.2⟩

/-- **C2**.  For every admitted effect kind, with configured duration `d`,
fade-in `f_in` and fade-out `f_out`, the per-frame intensity at elapsed
time `t` is `t / f_in` during fade-in, exactly `1` on the hold window, and
`(d - t) / f_out` during fade-out (the clamp into `[0,1]` is the identity
there); hence `intensity 0 = 0`, `intensity d = 0` and `intensity (d/2) = 1`,
the condition `f_in + f_out < d` holding for every configured kind; and the
frame update keeps exactly the instances whose elapsed time is still below
their duration, removing the rest. -/
theorem effect_envelope_spec (ty : EffectType) :
    (∀ t : ℚ, 0 ≤ t → t < (effectConfigs ty).fadeInDuration →
      intensityAt (effectConfigs ty) (effectConfigs ty).duration t
        = t / (effectConfigs ty).fadeInDuration) ∧
    (∀ t : ℚ, (effectConfigs ty).fadeInDuration ≤ t →
      t ≤ (effectConfigs ty).duration - (effectConfigs ty).fadeOutDuration →
      intensityAt (effectConfigs ty) (effectConfigs ty).duration t = 1) ∧
    (∀ t : ℚ, (effectConfigs ty).duration - (effectConfigs ty).fadeOutDuration < t →
      t ≤ (effectConfigs ty).duration →
      intensityAt (effectConfigs ty) (effectConfigs ty).duration t
        = ((effectConfigs ty).duration - t) / (effectConfigs ty).fadeOutDuration) ∧
    intensityAt (effectConfigs ty) (effectConfigs ty).duration 0 = 0 ∧
    intensityAt (effectConfigs ty) (effectConfigs ty).duration
      (effectConfigs ty).duration = 0 ∧
    intensityAt (effectConfigs ty) (effectConfigs ty).duration
      ((effectConfigs ty).duration / 2) = 1 ∧
    (effectConfigs ty).fadeInDuration + (effectConfigs ty).fadeOutDuration
      < (effectConfigs ty).duration ∧
    (∀ (now : ℚ) (effects : List Effect),
      tickEffects now effects
        = ((effects.filter fun e => decide (now - e.startTime < e.duration)).map
            (updateEffect now))) := by
  have hfi : 0 < (effectConfigs ty).fadeInDuration := by
    cases ty <;> norm_num [effectConfigs]
  have hfo : 0 < (effectConfigs ty).fadeOutDuration := by
    cases ty <;> norm_num [effectConfigs]
  have hsep : (effectConfigs ty).fadeInDuration
      ≤ (effectConfigs ty).duration - (effectConfigs ty).fadeOutDuration := by
    cases ty <;> norm_num [effectConfigs]
  obtain ⟨hp1, hp2, hp3⟩ :=
    intensityAt_piecewise (effectConfigs ty) (effectConfigs ty).duration hfi hfo hsep
  refine ⟨hp1, hp2, hp3, ?_, ?_, ?_, ?_, tickEffects_eq⟩
  · rw [hp1 0 le_rfl hfi, zero_div]
  · rw [hp3 _ (by linarith) le_rfl, sub_self, zero_div]
  · apply hp2 <;> cases ty <;> norm_num [effectConfigs]
  · cases ty <;> norm_num [effectConfigs]

theorem effect_envelope_spec_witness :
    intensityAt (effectConfigs EffectType.ripple) 2000 100 = 100 / 200 ∧
    intensityAt (effectConfigs EffectType.ripple) 2000 600 = 1 ∧
    intensityAt (effectConfigs EffectType.ripple) 2000 1500 = (2000 - 1500) / 800 ∧
    intensityAt (effectConfigs EffectType.ripple) 2000 (2000 / 2) = 1 := by
  have h := effect_envelope_spec EffectType.ripple
  exact ⟨h.1 100 (by norm_num) (by norm_num [effectConfigs]),
    h.2.1 600 (by norm_num [effectConfigs]) (by norm_num [effectConfigs]),
    h.2.2.1 1500 (by norm_num [effectConfigs]) (by norm_num [effectConfigs]),
    h.2.2.2.2.2.1⟩

/-! ## Traveling sparks (`effects/components/energyPulsesV.tsx`) -/

/-- A `PulseV` record: identity, carrier line, normalized position along it
(`lineFraction`), current world position (`posX`/`posZ` for `position.x` /
`position.z`), direction vector components, speed, orientation flag, the
processed-intersections set of z coordinates (`processedZ`), and the child
marker. -/
structure PulseV where
  id : ℕ
  parentId : Option ℕ
  line : GridLineData
  lineFraction : ℚ
  posX : ℚ
  posZ : ℚ
  dirX : ℚ
  dirZ : ℚ
  speed : ℚ
  isVertical : Bool
  processedZ : List ℚ
  isChild : Bool
deriving DecidableEq, Repr

/-- The predicate of `findIntersection`'s `gridLines.find(...)`: a
horizontal line whose coordinate is not yet in the pulse's `processedZ`
set, with `|currentZ - line.coordinate| < 1` (the tolerance), and the
pulse's own line coordinate within the candidate's
`[min(start, end), max(start, end)]` span. -/
def intersectionPred (pulse : PulseV) (line : GridLineData) : Bool :=
  !line.isVertical &&
  !(pulse.processedZ.contains line.coordinate) &&
  decide (|pulse.posZ - line.coordinate| < 1) &&
  decide (pulse.line.coordinate ≥ min line.start line.endp) &&
  decide (pulse.line.coordinate ≤ max line.start line.endp)

/-- `findIntersection(pulse)`: `null` for non-vertical pulses, otherwise the
first grid line satisfying the predicate (`Array.prototype.find`). -/
def findIntersection (gridLines : List GridLineData) (pulse : PulseV) :
    Option GridLineData :=
  if pulse.isVertical = false then none
  else gridLines.find? (intersectionPred pulse)

/-- `TARGET_VERTICAL_PULSES`. -/
def TARGET_VERTICAL_PULSES : ℕ := 3

/-- `createPulse(startLine, startFraction, direction, parentId, isChild)`.
`pulsesLen` is the captured `pulses.length` of the enclosing render,
`activeVerticalPulses` the ref counter; the two admission guards of the
source return `undefined` (here `none`).  The start position places the
pulse at `startFraction` along the running axis of `startLine`. -/
def createPulse (maxPulses pulsesLen activeVerticalPulses nextId : ℕ)
    (startLine : GridLineData) (startFraction dirX dirZ pulseSpeed : ℚ)
    (parentId : Option ℕ) (isChild : Bool) : Option PulseV :=
  if isChild = false ∧ TARGET_VERTICAL_PULSES ≤ activeVerticalPulses then none
  else if isChild = true ∧ maxPulses ≤ pulsesLen then none
  else some
    { id := nextId
      parentId := parentId
      line := startLine
      lineFraction := startFraction
      posX :=
        if startLine.isVertical then startLine.coordinate
        else startLine.start + startFraction * (startLine.endp - startLine.start)
      posZ :=
        if startLine.isVertical then
          startLine.start + startFraction * (startLine.endp - startLine.start)
        else startLine.coordinate
      dirX := dirX
      dirZ := dirZ
      speed := pulseSpeed
      isVertical := startLine.isVertical
      processedZ := []
      isChild := isChild }

/-- The `spawnFraction` of `spawnChildPulses`: the crossing point's
normalized position along the intersecting line. -/
def spawnFractionOf (parentPulse : PulseV) (intersectingLine : GridLineData) : ℚ :=
  (parentPulse.line.coordinate - intersectingLine.start) /
    (intersectingLine.endp - intersectingLine.start)

/-- `spawnChildPulses(parentPulse, intersectingLine)`: add the crossing's
coordinate to the parent's `processedZ`, compute the spawn fraction of the
crossing point along the intersecting line, and create one child per
transverse direction (`[-1, 1].forEach`), each subject to the `maxPulses`
capacity check against the same captured `pulses.length`.  Returns the
updated parent and the children actually created. -/
def spawnChildPulses (maxPulses pulsesLen activeVerticalPulses nextId : ℕ)
    (pulseSpeed : ℚ) (parentPulse : PulseV) (intersectingLine : GridLineData) :
    PulseV × List PulseV :=
  ({ parentPulse with
      processedZ := intersectingLine.coordinate :: parentPulse.processedZ },
   [createPulse maxPulses pulsesLen activeVerticalPulses nextId
      intersectingLine (spawnFractionOf parentPulse intersectingLine) (-1) 0
      pulseSpeed (some parentPulse.id) true,
    createPulse maxPulses pulsesLen activeVerticalPulses (nextId + 1)
      intersectingLine (spawnFractionOf parentPulse intersectingLine) 1 0
      pulseSpeed (some parentPulse.id) true].filterMap id)

/-- The frame step's new fraction:
`pulse.lineFraction + deltaFraction * direction`, where
`deltaFraction = pulse.speed * delta / lineLength` and
`lineLength = |pulse.line.end - pulse.line.start|`; the direction factor is
`direction.z` when nonzero, else `direction.x`. -/
def newFractionOf (pulse : PulseV) (delta : ℚ) : ℚ :=
  pulse.lineFraction +
    (if pulse.dirZ ≠ 0 then
      pulse.speed * delta / |pulse.line.endp - pulse.line.start| * pulse.dirZ
     else
      pulse.speed * delta / |pulse.line.endp - pulse.line.start| * pulse.dirX)

/-- The intersection block of the frame step: for a vertical pulse whose
`findIntersection` fires, the crossing is recorded in `processedZ`
(`spawnChildPulses` models the simultaneous child creation). -/
def markCrossing (gridLines : List GridLineData) (pulse : PulseV) : PulseV :=
  if pulse.isVertical then
    match findIntersection gridLines pulse with
    | some l => { pulse with processedZ := l.coordinate :: pulse.processedZ }
    | none => pulse
  else pulse

/-- One `useFrame` step of a single pulse (the body of the
`current.filter(...)` callback), for frame delta `delta`: remove the pulse
(`none`) once the new fraction leaves `[-0.05, 1.05]`, otherwise update
position along the carrier line and store the new fraction. -/
def stepPulse (gridLines : List GridLineData) (delta : ℚ) (pulse : PulseV) :
    Option PulseV :=
  if newFractionOf pulse delta < -(5/100) ∨ 105/100 < newFractionOf pulse delta then
    none
  else some
    { markCrossing gridLines pulse with
        lineFraction := newFractionOf pulse delta
        posX :=
          if pulse.line.isVertical then pulse.posX
          else pulse.line.start +
            newFractionOf pulse delta * (pulse.line.endp - pulse.line.start)
        posZ :=
          if pulse.line.isVertical then
            pulse.line.start +
              newFractionOf pulse delta * (pulse.line.endp - pulse.line.start)
          else pulse.posZ }

/-- `n` frame steps of a single pulse with constant delta; `none` once the
pulse has been removed. -/
def runPulse (gridLines : List GridLineData) (delta : ℚ) :
    ℕ → PulseV → Option PulseV
  | 0, p => some p
  | n + 1, p =>
      match stepPulse gridLines delta p with
      | some p' => runPulse gridLines delta n p'
      | none => none

/-- The state of a vertical spark traveling in direction `+z` on the line
`x = c`, `z ∈ [s, s + len]`, at fraction `f` (as produced by `createPulse`
at fraction `0` and advanced by `stepPulse`). -/
def pulseAt (c s len v f : ℚ) : PulseV :=
  { id := 0
    parentId := none
    line := GridLineData.mk true c s (s + len) len []
    lineFraction := f
    posX := c
    posZ := s + f * (s + len - s)
    dirX := 0
    dirZ := 1
    speed := v
    isVertical := true
    processedZ := []
    isChild := false }

theorem newFractionOf_pulseAt (c s len v Δ f : ℚ) (hlen : 0 < len) :
    newFractionOf (pulseAt c s len v f) Δ = f + v * Δ / len := by
  unfold newFractionOf pulseAt
  simp only [ne_eq, one_ne_zero, not_false_eq_true, if_true, mul_one]
  rw [show s + len - s = len by ring, abs_of_pos hlen]

theorem markCrossing_nil (p : PulseV) : markCrossing [] p = p := by
  unfold markCrossing findIntersection
  cases hp : p.isVertical <;> simp [hp, List.find?]

theorem stepPulse_pulseAt (c s len v Δ f : ℚ) (hlen : 0 < len) (hv : 0 < v)
    (hΔ : 0 < Δ) (h0 : 0 ≤ f) (hub : f + v * Δ / len ≤ 105 / 100) :
    stepPulse [] Δ (pulseAt c s len v f)
      = some (pulseAt c s len v (f + v * Δ / len)) := by
  have hpos : 0 < v * Δ / len := by positivity
  have hcond : ¬(newFractionOf (pulseAt c s len v f) Δ < -(5/100) ∨
      105/100 < newFractionOf (pulseAt c s len v f) Δ) := by
    rw [newFractionOf_pulseAt c s len v Δ f hlen]
    push_neg
    constructor <;> linarith
  unfold stepPulse
  rw [if_neg hcond, markCrossing_nil, newFractionOf_pulseAt c s len v Δ f hlen]
  rfl

theorem runPulse_pulseAt (c s len v Δ : ℚ) (hlen : 0 < len) (hv : 0 < v)
    (hΔ : 0 < Δ) :
    ∀ (k : ℕ) (f : ℚ), 0 ≤ f → f + k * (v * Δ / len) ≤ 105 / 100 →
      runPulse [] Δ k (pulseAt c s len v f)
        = some (pulseAt c s len v (f + k * (v * Δ / len))) := by
  intro k
  induction k with
  | zero =>
    intro f h0 _
    show some _ = _
    norm_num
  | succ k ih =>
    intro f h0 hub
    have hstep0 : 0 < v * Δ / len := by positivity
    have hub1 : f + v * Δ / len ≤ 105 / 100 := by
      have : (0 : ℚ) ≤ k * (v * Δ / len) := by positivity
      push_cast at hub
      linarith
    have hstep := stepPulse_pulseAt c s len v Δ f hlen hv hΔ h0 hub1
    show (match stepPulse [] Δ (pulseAt c s len v f) with
      | some p' => runPulse [] Δ k p'
      | none => none) = _
    rw [hstep]
    show runPulse [] Δ k (pulseAt c s len v (f + v * Δ / len)) = _
    rw [ih (f + v * Δ / len) (by linarith) (by push_cast at hub ⊢; linarith)]
    congr 1
    unfold pulseAt
    have : f + v * Δ / len + k * (v * Δ / len) = f + (k + 1 : ℕ) * (v * Δ / len) := by
      push_cast
      ring
    rw [this]

theorem runPulse_pulseAt_none (c s len v Δ : ℚ) (hlen : 0 < len) (hv : 0 < v)
    (hΔ : 0 < Δ) :
    ∀ (k : ℕ) (f : ℚ), 0 ≤ f → f ≤ 105 / 100 →
      105 / 100 < f + k * (v * Δ / len) →
      runPulse [] Δ k (pulseAt c s len v f) = none := by
  intro k
  induction k with
  | zero =>
    intro f h0 hle hgt
    push_cast at hgt
    linarith
  | succ k ih =>
    intro f h0 hle hgt
    by_cases hc : 105 / 100 < f + v * Δ / len
    · have hnone : stepPulse [] Δ (pulseAt c s len v f) = none := by
        unfold stepPulse
        rw [if_pos (Or.inr (by rw [newFractionOf_pulseAt c s len v Δ f hlen]; exact hc))]
      show (match stepPulse [] Δ (pulseAt c s len v f) with
        | some p' => runPulse [] Δ k p'
        | none => none) = none
      rw [hnone]
    · push_neg at hc
      have hstep := stepPulse_pulseAt c s len v Δ f hlen hv hΔ h0 hc
      show (match stepPulse [] Δ (pulseAt c s len v f) with
        | some p' => runPulse [] Δ k p'
        | none => none) = none
      rw [hstep]
      show runPulse [] Δ k (pulseAt c s len v (f + v * Δ / len)) = none
      apply ih (f + v * Δ / len) (by positivity) hc
      push_cast at hgt ⊢
      linarith

/-- **C8** (amended).  A spark starting at fraction 0 on a line of length
`len` with speed `v`, stepped with constant frame delta `Δ` and direction
`+z`: after `k` ticks its fraction is `k * (v * Δ / len)` — in particular
it is exactly 1 at simulated time `len / v` — and it survives a tick
exactly while the updated fraction stays within the `[-0.05, 1.05]`
tolerance band around the line's extent: it is removed on the first tick at
which the fraction exceeds `1.05`, not on the first tick after reaching
fraction 1. -/
theorem pulse_motion_spec (c s len v Δ : ℚ) (hlen : 0 < len) (hv : 0 < v)
    (hΔ : 0 < Δ) :
    (∀ k : ℕ, (k : ℚ) * (v * Δ / len) ≤ 105 / 100 →
      runPulse [] Δ k (pulseAt c s len v 0)
        = some (pulseAt c s len v (k * (v * Δ / len)))) ∧
    (∀ k : ℕ, (k : ℚ) * Δ = len / v →
      runPulse [] Δ k (pulseAt c s len v 0)
        = some (pulseAt c s len v 1)) ∧
    (∀ k : ℕ, 105 / 100 < (k : ℚ) * (v * Δ / len) →
      runPulse [] Δ k (pulseAt c s len v 0) = none) := by
  refine ⟨?_, ?_, ?_⟩
  · intro k hk
    have := runPulse_pulseAt c s len v Δ hlen hv hΔ k 0 le_rfl (by linarith)
    rw [this]
    congr 1
    unfold pulseAt
    rw [zero_add]
  · intro k hk
    have hone : (k : ℚ) * (v * Δ / len) = 1 := by
      have hvne : v ≠ 0 := ne_of_gt hv
      have hlne : len ≠ 0 := ne_of_gt hlen
      field_simp at hk ⊢
      linarith [hk]
    have := runPulse_pulseAt c s len v Δ hlen hv hΔ k 0 le_rfl
      (by rw [zero_add, hone]; norm_num)
    rw [this]
    congr 1
    rw [zero_add, hone]
  · intro k hk
    exact runPulse_pulseAt_none c s len v Δ hlen hv hΔ k 0 le_rfl (by norm_num)
      (by linarith)

theorem pulse_motion_spec_witness :
    (0 : ℚ) < 10 ∧ (0 : ℚ) < 1 ∧ (0 : ℚ) < 1/2 ∧
    runPulse [] (1/2) 22 (pulseAt 0 0 10 1 0) = none :=
  ⟨by norm_num, by norm_num, by norm_num,
    (pulse_motion_spec 0 0 10 1 (1/2) (by norm_num) (by norm_num)
      (by norm_num)).2.2 22 (by norm_num)⟩

/-- **C8** (counterexample to the claim as stated): with line length 10,
speed 1 and frame delta 1/2, the spark reaches fraction 1 on tick 20
(simulated time `10 = L/V`), but on the following tick its fraction is
`1.05 ≤ 1.05` so it is *not* removed — removal waits for the tolerance
band to be exceeded. -/
theorem spark_not_removed_next_tick_counterexample :
    runPulse [] (1/2) 20 (pulseAt 0 0 10 1 0) = some (pulseAt 0 0 10 1 1) ∧
    runPulse [] (1/2) 21 (pulseAt 0 0 10 1 0)
      = some (pulseAt 0 0 10 1 (105/100)) ∧
    (pulseAt 0 0 10 1 (105/100)).lineFraction = 105/100 := by
  refine ⟨?_, ?_, rfl⟩
  · have := runPulse_pulseAt 0 0 10 1 (1/2) (by norm_num) (by norm_num)
      (by norm_num) 20 0 le_rfl (by norm_num)
    rw [this]
    congr 1
    norm_num
  · have := runPulse_pulseAt 0 0 10 1 (1/2) (by norm_num) (by norm_num)
      (by norm_num) 21 0 le_rfl (by norm_num)
    rw [this]
    congr 1
    norm_num

/-- **C3** (amended).  When a vertical spark's `findIntersection` fires for
a crossing (first time within tolerance of that perpendicular line's
coordinate) and the pool is below the `maxPulses` capacity,
`spawnChildPulses` creates exactly two independent child instances on the
intersecting line at the crossing point, one per transverse direction; the
crossing's coordinate is recorded in the parent's processed-intersections
set — so the *same* crossing cannot re-trigger a branch, while crossings
with coordinates not yet in the set are still recognized.  (There is no
"has turned" flag: branching is limited per crossing, not per instance.) -/
theorem spark_branching_spec (gridLines : List GridLineData)
    (maxPulses pulsesLen activeVerticalPulses nextId : ℕ) (pulseSpeed : ℚ)
    (p : PulseV) (line : GridLineData)
    (hfind : findIntersection gridLines p = some line)
    (hcap : pulsesLen < maxPulses) :
    (spawnChildPulses maxPulses pulsesLen activeVerticalPulses nextId
        pulseSpeed p line).2.length = 2 ∧
    (∃ c1 c2,
      (spawnChildPulses maxPulses pulsesLen activeVerticalPulses nextId
        pulseSpeed p line).2 = [c1, c2] ∧
      c1.dirX = -1 ∧ c1.dirZ = 0 ∧ c2.dirX = 1 ∧ c2.dirZ = 0 ∧
      c1.line = line ∧ c2.line = line ∧
      c1.lineFraction = spawnFractionOf p line ∧
      c2.lineFraction = spawnFractionOf p line ∧
      c1.isChild = true ∧ c2.isChild = true ∧
      c1.processedZ = [] ∧ c2.processedZ = [] ∧
      c1.parentId = some p.id ∧ c2.parentId = some p.id ∧ c1.id ≠ c2.id) ∧
    (spawnChildPulses maxPulses pulsesLen activeVerticalPulses nextId
        pulseSpeed p line).1.processedZ = line.coordinate :: p.processedZ ∧
    (∀ l', findIntersection gridLines
        (spawnChildPulses maxPulses pulsesLen activeVerticalPulses nextId
          pulseSpeed p line).1 = some l' →
      l'.coordinate ≠ line.coordinate) ∧
    (∀ l2 ∈ gridLines,
      intersectionPred (spawnChildPulses maxPulses pulsesLen
        activeVerticalPulses nextId pulseSpeed p line).1 l2 = true →
      (findIntersection gridLines
        (spawnChildPulses maxPulses pulsesLen activeVerticalPulses nextId
          pulseSpeed p line).1).isSome = true) := by
  have hvert : p.isVertical = true := by
    by_contra hv
    rw [findIntersection, if_pos (by simpa using hv)] at hfind
    exact absurd hfind (by simp)
  have hncap : ¬(true = true ∧ maxPulses ≤ pulsesLen) := by
    simp [not_le.mpr hcap]
  have hsnd : (spawnChildPulses maxPulses pulsesLen activeVerticalPulses nextId
      pulseSpeed p line).2
      = [{ id := nextId
           parentId := some p.id
           line := line
           lineFraction := spawnFractionOf p line
           posX :=
             if line.isVertical then line.coordinate
             else line.start + spawnFractionOf p line * (line.endp - line.start)
           posZ :=
             if line.isVertical then
               line.start + spawnFractionOf p line * (line.endp - line.start)
             else line.coordinate
           dirX := -1
           dirZ := 0
           speed := pulseSpeed
           isVertical := line.isVertical
           processedZ := []
           isChild := true },
         { id := nextId + 1
           parentId := some p.id
           line := line
           lineFraction := spawnFractionOf p line
           posX :=
             if line.isVertical then line.coordinate
             else line.start + spawnFractionOf p line * (line.endp - line.start)
           posZ :=
             if line.isVertical then
               line.start + spawnFractionOf p line * (line.endp - line.start)
             else line.coordinate
           dirX := 1
           dirZ := 0
           speed := pulseSpeed
           isVertical := line.isVertical
           processedZ := []
           isChild := true }] := by
    unfold spawnChildPulses createPulse
    simp [not_le.mpr hcap]
  have hfst : (spawnChildPulses maxPulses pulsesLen activeVerticalPulses nextId
      pulseSpeed p line).1
      = { p with processedZ := line.coordinate :: p.processedZ } := rfl
  refine ⟨?_, ?_, ?_, ?_, ?_⟩
  · rw [hsnd]
    rfl
  · refine ⟨_, _, hsnd, rfl, rfl, rfl, rfl, rfl, rfl, rfl, rfl, rfl, rfl,
      rfl, rfl, rfl, rfl, ?_⟩
    exact Nat.ne_of_lt (Nat.lt_succ_self nextId)
  · rw [hfst]
  · intro l' hl'
    rw [hfst] at hl'
    rw [findIntersection] at hl'
    have hv' : ¬({ p with processedZ := line.coordinate :: p.processedZ} :
        PulseV).isVertical = false := by
      simp [hvert]
    rw [if_neg hv'] at hl'
    have hpred := List.find?_some hl'
    unfold intersectionPred at hpred
    simp only [Bool.and_eq_true, Bool.not_eq_true'] at hpred
    have hnotmem : l'.coordinate ∉ (line.coordinate :: p.processedZ) := by
      have := hpred.1.1.1.2
      simpa using this
    intro heq
    exact hnotmem (by rw [heq]; exact List.mem_cons_self _ _)
  · intro l2 hl2 hp2
    rw [findIntersection, if_neg (by rw [hfst]; simp [hvert])]
    exact List.find?_isSome.mpr ⟨l2, hl2, hp2⟩

/-- A three-line grid used to exhibit repeated branching: one vertical
carrier line and two horizontal lines at `z = 0` and `z = 10`, all
mutually overlapping. -/
def gTwoCrossings : List GridLineData :=
  [GridLineData.mk true 0 (-20) 20 40 [],
   GridLineData.mk false 0 (-20) 20 40 [],
   GridLineData.mk false 10 (-20) 20 40 []]

/-- A vertical spark on the carrier line of `gTwoCrossings`, currently at
`z = 0` (the first crossing). -/
def parentSpark : PulseV :=
  { id := 0
    parentId := none
    line := GridLineData.mk true 0 (-20) 20 40 []
    lineFraction := 1/2
    posX := 0
    posZ := 0
    dirX := 0
    dirZ := 1
    speed := 400
    isVertical := true
    processedZ := []
    isChild := false }

theorem spark_branching_spec_witness :
    (spawnChildPulses 75 0 3 1 400 parentSpark
      (GridLineData.mk false 0 (-20) 20 40 [])).2.length = 2 ∧
    (spawnChildPulses 75 0 3 1 400 parentSpark
      (GridLineData.mk false 0 (-20) 20 40 [])).1.processedZ = [0] := by
  have h := spark_branching_spec gTwoCrossings 75 0 3 1 400 parentSpark
    (GridLineData.mk false 0 (-20) 20 40 [])
    (by norm_num [findIntersection, parentSpark, gTwoCrossings,
      intersectionPred, List.find?])
    (by norm_num)
  exact ⟨h.1, h.2.2.1⟩

/-- **C3** (counterexample to the claim as stated): the parent spark has no
"has turned" flag — after branching at the crossing `z = 0` (two children
spawned, the crossing recorded), the *same instance*, upon reaching the new
crossing `z = 10`, branches again and spawns two further children.
Branching is not limited to at most one event per instance. -/
theorem spark_branches_twice_counterexample :
    findIntersection gTwoCrossings parentSpark
      = some (GridLineData.mk false 0 (-20) 20 40 []) ∧
    (spawnChildPulses 75 0 3 1 400 parentSpark
      (GridLineData.mk false 0 (-20) 20 40 [])).2.length = 2 ∧
    findIntersection gTwoCrossings
      { (spawnChildPulses 75 0 3 1 400 parentSpark
          (GridLineData.mk false 0 (-20) 20 40 [])).1 with
        posZ := 10, lineFraction := 3/4 }
      = some (GridLineData.mk false 10 (-20) 20 40 []) ∧
    (spawnChildPulses 75 2 3 3 400
      { (spawnChildPulses 75 0 3 1 400 parentSpark
          (GridLineData.mk false 0 (-20) 20 40 [])).1 with
        posZ := 10, lineFraction := 3/4 }
      (GridLineData.mk false 10 (-20) 20 40 [])).2.length = 2 := by
  refine ⟨?_, rfl, ?_, rfl⟩
  · norm_num [findIntersection, parentSpark, gTwoCrossings, intersectionPred,
      List.find?]
  · norm_num [findIntersection, spawnChildPulses, createPulse, parentSpark,
      gTwoCrossings, intersectionPred, List.find?, List.contains]

/-! ## Material application and restoration
(`neonPulse.tsx`, `gridPulseEffect.tsx`, `useGridEffectsManager.tsx`) -/

/-- A grid line's mesh as the per-frame material code sees it: the material
and the `userData` may each be absent or malformed at runtime
(asynchronous scene-graph reconstruction), hence `Option` fields. -/
structure MeshM where
  material : Option MaterialState
  userData : Option TubeData
deriving DecidableEq, Repr

/-- A grid line's renderable handle; `mesh = none` models an absent
handle. -/
structure LineM where
  mesh : Option MeshM
deriving DecidableEq, Repr

/-- A line whose mesh is fully present, as built by `createTube`. -/
def LineM.ofMesh (m : GridMesh) : LineM :=
  ⟨some ⟨some m.material, some m.userData⟩⟩

/-- `getMaterial` of `neonPulse.tsx`: `if (!line?.mesh?.material) return
null` (the defensive accessor; the `material.emissive` backfill is a no-op
here since the model's `MaterialState` always carries an emissive). -/
def getMaterial (line : LineM) : Option MaterialState :=
  match line.mesh with
  | none => none
  | some m => m.material

/-- The reset loop at the top of `updateLineWaves`
(`useGridEffectsManager.tsx`): for every line,
`line.mesh.material.emissive.copy(userData.emissiveBase)` and
`line.mesh.material.color.copy(userData.baseColor).multiplyScalar(0.5)`,
dereferenced *without* any guard — an absent `mesh`, `material` or
`userData` is a thrown `TypeError`, modelled as `Except.error`. -/
def updateLineWavesReset (gridLines : List LineM) :
    Except String (List LineM) :=
  gridLines.mapM fun line =>
    match line.mesh with
    | none => Except.error "TypeError: line.mesh is undefined"
    | some m =>
      match m.material, m.userData with
      | some mat, some ud =>
          Except.ok (LineM.mk (some
            { m with
                material := some
                  { mat with
                      emissive := ud.emissiveBase
                      color := ud.baseColor.multiplyScalar (1/2) } }))
      | _, _ => Except.error "TypeError: mesh field is undefined"

/-- The per-line body of `NeonPulse`'s `useFrame` loop: `getMaterial` skip
when the material is absent, otherwise `safeUpdateMaterial` writes the
computed emissive color and intensity (`computed` abstracts the
`Math.sin`/`Math.sqrt`-based color and intensity arithmetic). -/
def neonPulseLine (computed : Color3 × ℚ) (line : LineM) : LineM :=
  match line.mesh with
  | none => line
  | some m =>
    match m.material with
    | none => line
    | some mat =>
        LineM.mk (some
          { m with
              material := some
                { mat with
                    emissive := computed.1
                    emissiveIntensity := computed.2 } })

/-- One `NeonPulse` frame over all lines (`computed` gives the per-index
color/intensity pair). -/
def neonPulseFrame (computed : ℕ → Color3 × ℚ) (gridLines : List LineM) :
    List LineM :=
  gridLines.mapIdx fun index line => neonPulseLine (computed index) line

/-- `NeonPulse`'s mount-time capture `originalEmissiveIntensities`:
`material?.emissiveIntensity ?? 0` per line. -/
def captureEmissiveIntensities (gridLines : List LineM) : List ℚ :=
  gridLines.map fun line =>
    match getMaterial line with
    | some mat => mat.emissiveIntensity
    | none => 0

/-- `NeonPulse`'s mount-time capture `originalEmissiveColors`:
`safeCloneColor(material?.emissive)` per line (black fallback). -/
def captureEmissiveColors (gridLines : List LineM) : List Color3 :=
  gridLines.map fun line =>
    match getMaterial line with
    | some mat => mat.emissive
    | none => ⟨0, 0, 0⟩

/-- The per-line body of `NeonPulse`'s completion/cleanup restore:
`safeUpdateMaterial(material, originalColor ?? new Color(),
originalIntensity ?? 0)` — writes back the captured emissive color and
intensity, skipping lines without a material. -/
def neonPulseRestoreLine (origColor : Option Color3) (origIntensity : Option ℚ)
    (line : LineM) : LineM :=
  match line.mesh with
  | none => line
  | some m =>
    match m.material with
    | none => line
    | some mat =>
        LineM.mk (some
          { m with
              material := some
                { mat with
                    emissive := origColor.getD ⟨0, 0, 0⟩
                    emissiveIntensity := origIntensity.getD 0 } })

/-- `NeonPulse`'s completion/cleanup restore over all lines (indexed into
the captured arrays). -/
def neonPulseRestore (origColors : List Color3) (origIntensities : List ℚ)
    (gridLines : List LineM) : List LineM :=
  gridLines.mapIdx fun index line =>
    neonPulseRestoreLine origColors[index]? origIntensities[index]? line

/-- `GridPulse`'s mount-time snapshot `originalMaterials`: the lines with a
present material, each line's displayed `color` and `emissive` cloned.
Note the source filters before mapping, so indices shift if some line
lacks a material. -/
def snapshotMaterials (gridLines : List LineM) : List (Color3 × Color3) :=
  (gridLines.filter fun line => (getMaterial line).isSome).map fun line =>
    match getMaterial line with
    | some mat => (mat.color, mat.emissive)
    | none => (⟨0, 0, 0⟩, ⟨0, 0, 0⟩)

/-- The per-line body of `GridPulse`'s `useFrame` loop: skip when `mesh`,
`userData`, `baseColor`/`emissiveBase` or (via optional chaining) the
material is absent; otherwise write
`color := baseColor * (0.3 + pulse * intensity)` and
`emissive := emissiveBase * (0.5 + pulse * 1.5 * intensity *
bloomStrength)`, where `pulse` stands for the transcendental
`(Math.sin((time + offset) * 1) + 1) * 0.5`, supplied as a function
`pulseOf` of the line's phase offset. -/
def gridPulseLine (pulseOf : ℚ → ℚ) (intensity bloomStrength : ℚ)
    (line : LineM) : LineM :=
  match line.mesh with
  | none => line
  | some m =>
    match m.userData with
    | none => line
    | some ud =>
      match m.material with
      | none => line
      | some mat =>
          LineM.mk (some
            { m with
                material := some
                  { mat with
                      color := ud.baseColor.multiplyScalar
                        (3/10 + pulseOf ud.offset * intensity)
                      emissive := ud.emissiveBase.multiplyScalar
                        (1/2 + pulseOf ud.offset * (3/2) * intensity *
                          bloomStrength) } })

/-- One `GridPulse` frame over all lines. -/
def gridPulseFrame (pulseOf : ℚ → ℚ) (intensity bloomStrength : ℚ)
    (gridLines : List LineM) : List LineM :=
  gridLines.map (gridPulseLine pulseOf intensity bloomStrength)

/-- The per-line body of `GridPulse`'s cleanup restore: skip when the
renderable or its material is absent or the snapshot has no entry for the
index, otherwise copy the snapshot's `color` and `emissive` back. -/
def restoreLine (original : Option (Color3 × Color3)) (line : LineM) : LineM :=
  match line.mesh with
  | none => line
  | some m =>
    match m.material with
    | none => line
    | some mat =>
      match original with
      | some o =>
          LineM.mk (some
            { m with
                material := some { mat with color := o.1, emissive := o.2 } })
      | none => line

/-- `GridPulse`'s cleanup: restore each line from the snapshot by index. -/
def restoreMaterials (snapshot : List (Color3 × Color3))
    (gridLines : List LineM) : List LineM :=
  gridLines.mapIdx fun index line => restoreLine snapshot[index]? line

/-- **C9** (the code, evaluated).  `NeonPulse`'s per-frame path is
defensive: a line with an absent renderable handle is skipped unchanged and
the frame always completes (the model is a total function).  But the
`updateLineWaves` reset loop dereferences `line.mesh.userData` and
`line.mesh.material` without any guard: on a line whose mesh is absent it
throws (`Except.error`) instead of skipping — contradicting the claim that
every per-frame material update returns normally. -/
theorem updateLineWaves_raises_on_missing_mesh :
    updateLineWavesReset [LineM.mk none]
      = Except.error "TypeError: line.mesh is undefined" ∧
    (∀ computed : ℕ → Color3 × ℚ,
      neonPulseFrame computed [LineM.mk none] = [LineM.mk none]) ∧
    (∀ (computed : ℕ → Color3 × ℚ) (gridLines : List LineM),
      (neonPulseFrame computed gridLines).length = gridLines.length) := by
  refine ⟨rfl, fun computed => rfl, fun computed gridLines => ?_⟩
  simp [neonPulseFrame]

theorem foldl_gridPulseFrame_getElem (frames : List ((ℚ → ℚ) × ℚ × ℚ))
    (ls0 : List LineM) (k : ℕ) :
    (frames.foldl (fun ls f => gridPulseFrame f.1 f.2.1 f.2.2 ls) ls0)[k]?
      = Option.map
          (fun x => frames.foldl (fun x f => gridPulseLine f.1 f.2.1 f.2.2 x) x)
          ls0[k]? := by
  induction frames generalizing ls0 with
  | nil => simp
  | cons f fs ih =>
    rw [List.foldl_cons, ih (gridPulseFrame f.1 f.2.1 f.2.2 ls0)]
    unfold gridPulseFrame
    rw [List.getElem?_map, Option.map_map]
    rfl

theorem foldl_neonPulseFrame_getElem (cs : List (ℕ → Color3 × ℚ))
    (ls0 : List LineM) (k : ℕ) :
    (cs.foldl (fun ls f => neonPulseFrame f ls) ls0)[k]?
      = Option.map (fun x => cs.foldl (fun x f => neonPulseLine (f k) x) x)
          ls0[k]? := by
  induction cs generalizing ls0 with
  | nil => simp
  | cons f fs ih =>
    rw [List.foldl_cons, ih (neonPulseFrame f ls0)]
    unfold neonPulseFrame
    rw [List.getElem?_mapIdx, Option.map_map]
    rfl

theorem gridPulseFold_shape (frames : List ((ℚ → ℚ) × ℚ × ℚ))
    (ud : TubeData) (ei : ℚ) :
    ∀ col em : Color3, ∃ col' em' : Color3,
      frames.foldl (fun x f => gridPulseLine f.1 f.2.1 f.2.2 x)
        (LineM.mk (some ⟨some ⟨col, em, ei⟩, some ud⟩))
      = LineM.mk (some ⟨some ⟨col', em', ei⟩, some ud⟩) := by
  induction frames with
  | nil => exact fun col em => ⟨col, em, rfl⟩
  | cons f fs ih =>
    intro col em
    rw [List.foldl_cons]
    exact ih _ _

theorem neonPulseFold_shape (cs : List (ℕ → Color3 × ℚ)) (k : ℕ)
    (ud : TubeData) (col : Color3) :
    ∀ (em : Color3) (ei : ℚ), ∃ (em' : Color3) (ei' : ℚ),
      cs.foldl (fun x f => neonPulseLine (f k) x)
        (LineM.mk (some ⟨some ⟨col, em, ei⟩, some ud⟩))
      = LineM.mk (some ⟨some ⟨col, em', ei'⟩, some ud⟩) := by
  induction cs with
  | nil => exact fun em ei => ⟨em, ei, rfl⟩
  | cons f fs ih =>
    intro em ei
    rw [List.foldl_cons]
    exact ih _ _

theorem snapshotMaterials_resting (params : List (Color3 × ℚ)) :
    snapshotMaterials (params.map fun q => LineM.ofMesh (createTube q.1 q.2))
      = params.map fun q => (q.1.multiplyScalar (1/2), q.1) := by
  unfold snapshotMaterials
  have hfilter :
      ((params.map fun q => LineM.ofMesh (createTube q.1 q.2)).filter
        fun line => (getMaterial line).isSome)
        = params.map fun q => LineM.ofMesh (createTube q.1 q.2) := by
    rw [List.filter_eq_self]
    intro l hl
    rcases List.mem_map.mp hl with ⟨q, _, rfl⟩
    rfl
  rw [hfilter, List.map_map]
  rfl

theorem captureEmissiveColors_resting (params : List (Color3 × ℚ)) :
    captureEmissiveColors (params.map fun q => LineM.ofMesh (createTube q.1 q.2))
      = params.map fun q => q.1 := by
  unfold captureEmissiveColors
  rw [List.map_map]
  rfl

theorem captureEmissiveIntensities_resting (params : List (Color3 × ℚ)) :
    captureEmissiveIntensities
        (params.map fun q => LineM.ofMesh (createTube q.1 q.2))
      = params.map fun _ => 1 := by
  unfold captureEmissiveIntensities
  rw [List.map_map]
  rfl

/-- **C6** (amended).  For lines at rest as `createTube` builds them, after
a `GridPulse` effect's frames (any number, any pulse values) its cleanup
restore returns every line *exactly* to the captured resting state, and
likewise `NeonPulse`'s completion/cleanup restore; the resting state has
displayed emissive exactly `emissiveBase` but displayed color
`baseColor * 0.5` — the restoration round-trips to the resting material
values, not to `baseColor` itself. -/
theorem material_roundtrip_restore (params : List (Color3 × ℚ))
    (frames : List ((ℚ → ℚ) × ℚ × ℚ)) (ncomputes : List (ℕ → Color3 × ℚ)) :
    restoreMaterials
        (snapshotMaterials (params.map fun q => LineM.ofMesh (createTube q.1 q.2)))
        (frames.foldl (fun ls f => gridPulseFrame f.1 f.2.1 f.2.2 ls)
          (params.map fun q => LineM.ofMesh (createTube q.1 q.2)))
      = (params.map fun q => LineM.ofMesh (createTube q.1 q.2)) ∧
    neonPulseRestore
        (captureEmissiveColors
          (params.map fun q => LineM.ofMesh (createTube q.1 q.2)))
        (captureEmissiveIntensities
          (params.map fun q => LineM.ofMesh (createTube q.1 q.2)))
        (ncomputes.foldl (fun ls f => neonPulseFrame f ls)
          (params.map fun q => LineM.ofMesh (createTube q.1 q.2)))
      = (params.map fun q => LineM.ofMesh (createTube q.1 q.2)) ∧
    (∀ q ∈ params,
      (createTube q.1 q.2).material.emissive
        = (createTube q.1 q.2).userData.emissiveBase ∧
      (createTube q.1 q.2).material.color
        = ((createTube q.1 q.2).userData.baseColor).multiplyScalar (1/2)) := by
  refine ⟨?_, ?_, fun q _ => ⟨rfl, rfl⟩⟩
  · apply List.ext_getElem?
    intro k
    unfold restoreMaterials
    rw [List.getElem?_mapIdx, foldl_gridPulseFrame_getElem, Option.map_map,
      snapshotMaterials_resting, List.getElem?_map, List.getElem?_map]
    cases hq : params[k]? with
    | none => rfl
    | some q =>
      simp only [Option.map_some']
      obtain ⟨col', em', hfold⟩ := gridPulseFold_shape frames
        ⟨q.1, q.2, q.1⟩ 1 (q.1.multiplyScalar (1/2)) q.1
      show some (restoreLine (some (q.1.multiplyScalar (1/2), q.1))
        (frames.foldl (fun x f => gridPulseLine f.1 f.2.1 f.2.2 x)
          (LineM.mk (some ⟨some ⟨q.1.multiplyScalar (1/2), q.1, 1⟩,
            some ⟨q.1, q.2, q.1⟩⟩)))) = _
      rw [hfold]
      rfl
  · apply List.ext_getElem?
    intro k
    unfold neonPulseRestore
    rw [List.getElem?_mapIdx, foldl_neonPulseFrame_getElem, Option.map_map,
      captureEmissiveColors_resting, captureEmissiveIntensities_resting,
      List.getElem?_map, List.getElem?_map, List.getElem?_map]
    cases hq : params[k]? with
    | none => rfl
    | some q =>
      simp only [Option.map_some']
      obtain ⟨em', ei', hfold⟩ := neonPulseFold_shape ncomputes k
        ⟨q.1, q.2, q.1⟩ (q.1.multiplyScalar (1/2)) q.1 1
      show some (neonPulseRestoreLine (some q.1) (some 1)
        (ncomputes.foldl (fun x f => neonPulseLine (f k) x)
          (LineM.mk (some ⟨some ⟨q.1.multiplyScalar (1/2), q.1, 1⟩,
            some ⟨q.1, q.2, q.1⟩⟩)))) = _
      rw [hfold]
      rfl

/-- **C6** (counterexample to the claim as stated): a single resting line
with `baseColor = (1,1,1)`; after a `GridPulse` frame and its cleanup
restore, the displayed material is exactly the resting state again — whose
`color` is `baseColor * 0.5 = (1/2, 1/2, 1/2)`, *not* the stored
`baseColor` itself, so "displayed color exactly equal to baseColor" fails
even though the round-trip restoration is exact. -/
theorem restore_color_not_baseColor_counterexample :
    restoreMaterials
        (snapshotMaterials [LineM.ofMesh (createTube ⟨1, 1, 1⟩ 0)])
        (gridPulseFrame (fun _ => 1/2) 1 (3/2)
          [LineM.ofMesh (createTube ⟨1, 1, 1⟩ 0)])
      = [LineM.ofMesh (createTube ⟨1, 1, 1⟩ 0)] ∧
    (createTube ⟨1, 1, 1⟩ 0).material.color
      = Color3.mk (1/2) (1/2) (1/2) ∧
    (createTube ⟨1, 1, 1⟩ 0).userData.baseColor = Color3.mk 1 1 1 ∧
    (createTube ⟨1, 1, 1⟩ 0).material.color
      ≠ (createTube ⟨1, 1, 1⟩ 0).userData.baseColor := by
  refine ⟨?_, ?_, rfl, ?_⟩
  · norm_num [restoreMaterials, snapshotMaterials, gridPulseFrame,
      gridPulseLine, restoreLine, getMaterial, LineM.ofMesh, createTube,
      Color3.multiplyScalar, List.mapIdx, List.mapIdx.go]
  · norm_num [createTube, Color3.multiplyScalar]
  · norm_num [createTube, Color3.multiplyScalar, Color3.mk.injEq]

end CyberThree
